import Mathlib

deriving instance DecidableEq for Except

/-!
Shallow embedding of the GOG library-management module of
HeroicGamesLauncherHub (`gog/library.ts`): the `GOGLibrary` class
(`sync`, `refreshInstalled`, `changeGameInstallPath`,
`listUpdateableGames`, `checkForLinuxInstallerUpdate`,
`checkForGameUpdate`, `gogToUnifiedInfo`, `getGamesdbData`) and the
free function `getGogdlCommand`.

The HTTP layer (axios) and the persisted electron stores are made
explicit: every network endpoint becomes a function field of `SyncEnv`
(`none` models a failed / rejected request), and the three persisted
stores (`library`, `installed`, `api_info_cache`) together with the two
in-memory maps of the class become the fields of `SyncState`.  A caught
rejection is an ordinary value; an uncaught rejection is modelled with
`Except Unit`.  JavaScript `Map` objects are modelled as association
lists with first-key-wins lookup and in-place overwrite on `set`.
-/

namespace GogLibrary

/-! ## JavaScript string primitives

`String.prototype.startsWith`, `String.prototype.includes` and
`String.prototype.replace` (string pattern: first occurrence only) are
re-implemented over character lists so that they are executable by the
kernel on concrete inputs. -/

/-- `s.startsWith(p)` for JavaScript strings. -/
def jsStartsWith (s p : String) : Bool :=
  p.data.isPrefixOf s.data

/-- Character-list core of `String.prototype.includes`. -/
def listContainsSub (pat : List Char) : List Char → Bool
  | [] => pat.isPrefixOf []
  | c :: cs => pat.isPrefixOf (c :: cs) || listContainsSub pat cs

/-- `s.includes(sub)` for JavaScript strings. -/
def jsIncludes (s sub : String) : Bool :=
  listContainsSub sub.data s.data

/-- Character-list core of `String.prototype.replace` with a string
pattern: only the first occurrence is replaced. -/
def replaceFirstList (pat repl : List Char) : List Char → List Char
  | [] => []
  | c :: cs =>
    if pat.isPrefixOf (c :: cs) then repl ++ (c :: cs).drop pat.length
    else c :: replaceFirstList pat repl cs

/-- `s.replace(pat, repl)` for JavaScript strings (string pattern,
first occurrence only). -/
def jsReplace (s pat repl : String) : String :=
  ⟨replaceFirstList pat.data repl.data s.data⟩

/-- Truthiness of a possibly-`undefined` JavaScript string: `undefined`
and the empty string are falsy. -/
def optTruthy : Option String → Bool
  | none => false
  | some s => s != ""

/-! ## JavaScript `Map` as an association list -/

/-- `Map.prototype.get`. -/
def assocGet {α : Type} : List (String × α) → String → Option α
  | [], _ => none
  | (k', v) :: rest, k => if k' == k then some v else assocGet rest k

/-- `Map.prototype.set`: overwrite in place if the key is present,
append otherwise. -/
def assocSet {α : Type} : List (String × α) → String → α → List (String × α)
  | [], k, v => [(k, v)]
  | (k', v') :: rest, k, v =>
    if k' == k then (k', v) :: rest else (k', v') :: assocSet rest k v

/-! ## Data model (`types.ts` shapes used by the library module) -/

/-- `GOGGameInfo.worksOn` platform-support flags. -/
structure WorksOn where
  Windows : Bool
  Mac : Bool
  Linux : Bool
  deriving DecidableEq, Repr

/-- A raw catalog entry of `getFilteredProducts` (`GOGGameInfo`). -/
structure GOGGameInfo where
  id : Nat
  title : String
  slug : String
  url : String
  image : String
  worksOn : WorksOn
  deriving DecidableEq, Repr

/-- One developer entry of the gamesdb payload. -/
structure GDeveloper where
  name : String
  deriving DecidableEq, Repr

/-- `vertical_cover` of the gamesdb payload. -/
structure GCover where
  url_format : String
  deriving DecidableEq, Repr

/-- The `game` object of a gamesdb response; `summary` is a
locale-keyed dictionary (key `"*"` is the default locale). -/
structure GamesdbGame where
  developers : List GDeveloper
  vertical_cover : GCover
  summary : List (String × String)
  deriving DecidableEq, Repr

/-- The `data` part of a `getGamesdbData` result, as cached in the
`api_info_cache` store: a possibly-empty payload plus the response
etag that `getGamesdbData` stamps onto it. -/
structure ApiData where
  game : Option GamesdbGame
  etag : Option String := none
  deriving DecidableEq, Repr

/-- `_links` of an `api.gog.com/v2/games` response; `boxArtImage` is
the `href` of the box-art link. -/
structure GogV2Links where
  boxArtImage : String
  deriving DecidableEq, Repr

/-- An `api.gog.com/v2/games` response body (`getGamesData` result). -/
structure GogV2Data where
  _links : Option GogV2Links
  deriving DecidableEq, Repr

/-- One entry of `downloads.installers` of a products-API response. -/
structure Installer where
  os : String
  version : String
  language : String
  deriving DecidableEq, Repr

/-- An installed-game record (`InstalledInfo`).  The same structural
type also serves as the `install` sub-object of a unified record, whose
freshly-built form leaves `version` unset; fields that only installed
records carry default to `none`. -/
structure InstalledInfo where
  appName : String := ""
  install_path : String
  executable : String
  install_size : String
  is_dlc : Bool
  version : Option String
  platform : String
  buildId : Option String := none
  installedWithDLCs : Option Bool := none
  versionEtag : Option String := none
  deriving DecidableEq, Repr

/-- The `extra.about` sub-object of a unified record. -/
structure ExtraAbout where
  description : Option String
  shortDescription : String
  deriving DecidableEq, Repr

/-- One parsed requirements row (`createReqsArray` output shape). -/
structure GameRequirement where
  title : String
  minimum : String
  recommended : Option String
  deriving DecidableEq, Repr

/-- The `extra` sub-object of a unified record. -/
structure ExtraInfo where
  about : ExtraAbout
  reqs : List GameRequirement
  deriving DecidableEq, Repr

/-- The unified game record (`GameInfo`), exactly the fields built by
`gogToUnifiedInfo`. -/
structure GameInfo where
  runner : String
  store_url : String
  developer : String
  app_name : String
  art_logo : Option String
  art_cover : String
  art_square : String
  cloud_save_enabled : Bool
  compatible_apps : List String
  extra : ExtraInfo
  folder_name : String
  install : InstalledInfo
  is_game : Bool
  is_installed : Bool
  is_ue_asset : Bool
  is_ue_plugin : Bool
  is_ue_project : Bool
  «namespace» : String
  save_folder : String
  title : String
  canRunOffline : Bool
  is_mac_native : Bool
  is_linux_native : Bool
  deriving DecidableEq, Repr

/-- The empty `install` object a fresh unified record is built with. -/
def emptyInstall : InstalledInfo :=
  { version := none
    executable := ""
    install_path := ""
    install_size := ""
    is_dlc := false
    platform := "" }

/-- Modelled from the spec: the fixed placeholder image asset
(`fallBackImage` of `constants.ts`, which is not part of this
repository snapshot). -/
def fallBackImage : String := "fallback"

/-! ## Remote endpoints and persisted stores -/

/-- Bearer credentials handed out by `GOGUser.getCredentials`. -/
structure Credentials where
  access_token : String
  deriving DecidableEq, Repr

/-- Response body of page 1 of `getFilteredProducts`. -/
structure Page1Data where
  products : Option (List GOGGameInfo)
  totalPages : Nat
  totalProducts : Nat
  moviesCount : Nat
  deriving DecidableEq, Repr

/-- Response body of a subsequent `getFilteredProducts` page; the
`products` field may be absent, in which case the page is skipped. -/
structure PageNData where
  products : Option (List GOGGameInfo)
  deriving DecidableEq, Repr

/-- A gamesdb response: the optional `game` payload plus the `etag`
response header. -/
structure GamesdbResp where
  game : Option GamesdbGame
  respEtag : Option String
  deriving DecidableEq, Repr

/-- One entry of `items` of a content-system builds listing. -/
structure BuildItem where
  link : String
  deriving DecidableEq, Repr

/-- Response body of the content-system builds listing. -/
structure BuildsData where
  items : List BuildItem
  deriving DecidableEq, Repr

/-- The remote collaborators of the library module.  Each field is one
HTTP endpoint, keyed by the request parameters that reach it; `none`
is a failed request (for the guarded calls it is the caught rejection,
for the unguarded ones the uncaught one). -/
structure SyncEnv where
  /-- `GOGUser.isLoggedIn()`. -/
  isLoggedIn : Bool
  /-- `GOGUser.getCredentials()`; `none` short-circuits `sync`. -/
  credentials : Option Credentials
  /-- Page 1 of `getFilteredProducts` (the guarded first request). -/
  page1 : Option Page1Data
  /-- `getFilteredProducts` for pages ≥ 2 (unguarded requests). -/
  fetchPage : Nat → Option PageNData
  /-- `gamesdb.gog.com` external-releases lookup, keyed by store and
  game id (`getGamesdbData`'s guarded request). -/
  gamesdb : String → String → Option GamesdbResp
  /-- `api.gog.com/v2/games` detail lookup keyed by game id
  (`getGamesData`'s guarded request). -/
  gamesV2 : String → Option GogV2Data
  /-- `api.gog.com/products` with `expand=downloads`, keyed by game id
  (`getProductApi`); a response is assumed to carry the downloads
  listing (a response without it would make the caller throw on
  iteration, a case no claim exercises). -/
  productApi : String → Option (List Installer)
  /-- Content-system builds listing keyed by game id and platform
  (unguarded request of `checkForGameUpdate`). -/
  builds : String → String → Option BuildsData
  /-- Status of the conditional metadata request of
  `checkForGameUpdate`, keyed by the metadata URL and the
  `If-None-Match` header value. -/
  metaStatus : String → Option String → Nat

/-- The three persisted `gog_store` key-value stores. -/
structure Stores where
  /-- `libraryStore.get('games')`; absent before the first sync. -/
  games : Option (List GameInfo)
  /-- `libraryStore.get('totalGames')`. -/
  totalGames : Option Nat
  /-- `libraryStore.get('totalMovies')`. -/
  totalMovies : Option Nat
  /-- The `api_info_cache` store, keyed by game id. -/
  apiInfoCache : List (String × ApiData)
  /-- `installedGamesStore.get('installed')` (`|| []` at every use). -/
  installed : List InstalledInfo
  deriving DecidableEq, Repr

/-- The in-memory maps of the `GOGLibrary` singleton. -/
structure Mem where
  /-- `this.library`. -/
  library : List (String × GameInfo)
  /-- `this.installedGames`. -/
  installedGames : List (String × InstalledInfo)
  deriving DecidableEq, Repr

/-- Full observable state of the module: persisted stores plus the
in-memory maps. -/
structure SyncState where
  stores : Stores
  mem : Mem
  deriving DecidableEq, Repr

/-! ## `getGamesdbData`, `getGamesData`, `gogToUnifiedInfo` -/

/-- Result shape of `GOGLibrary.getGamesdbData`. -/
structure GamesdbResult where
  isUpdated : Bool
  data : ApiData
  deriving DecidableEq, Repr

/-- `GOGLibrary.getGamesdbData`: on a failed request the caught
rejection yields `{isUpdated: false, data: {}}`; otherwise the response
body is stamped with the response etag and compared against the
request etag. -/
def getGamesdbData (env : SyncEnv) (store game_id : String)
    (etag : Option String) : GamesdbResult :=
  match env.gamesdb store game_id with
  | none => { isUpdated := false, data := { game := none, etag := none } }
  | some response =>
    let resEtag := response.respEtag
    let isUpdated := etag == resEtag
    { isUpdated, data := { game := response.game, etag := resEtag } }

/-- `GOGLibrary.getGamesData`: plain response body, `null` on a failed
request.  (The URL's locale-suffix construction is not modelled: the
HTTP layer is abstracted as a function of the game id, and the sync
path never passes a locale.) -/
def getGamesData (env : SyncEnv) (appName : String) : Option GogV2Data :=
  env.gamesV2 appName

/-- The four locals `gogToUnifiedInfo` computes branch-wise before
assembling the unified record. -/
structure EnrichedFields where
  developer : Option String
  verticalCover : String
  horizontalCover : String
  description : Option String
  deriving DecidableEq, Repr

/-- Branch-wise enrichment of `gogToUnifiedInfo`: with a gamesdb `game`
payload, join the developer names, instantiate the vertical-cover URL
template and read the default-locale summary; otherwise fall back to
the v2 games endpoint for the vertical cover, and to the placeholder
image when that too lacks the box-art link. -/
def enrichInfo (env : SyncEnv) (info : GOGGameInfo)
    (gamesdbData : Option ApiData) : EnrichedFields :=
  match gamesdbData.bind (fun d => d.game) with
  | some g =>
    let developers := g.developers.map (fun d => d.name)
    { developer := some (String.intercalate ", " developers)
      verticalCover :=
        jsReplace (jsReplace g.vertical_cover.url_format "\x7bformatter\x7d" "")
          "\x7bext\x7d" "jpg"
      horizontalCover := "https:" ++ info.image ++ ".jpg"
      description := g.summary.lookup "*" }
  | none =>
    let apiData := getGamesData env (toString info.id)
    { developer := none
      verticalCover :=
        match apiData.bind (fun d => d._links) with
        | some links => links.boxArtImage
        | none => fallBackImage
      horizontalCover := "https:" ++ info.image ++ ".jpg"
      description := none }

/-- `GOGLibrary.gogToUnifiedInfo`: convert a raw catalog entry plus its
secondary metadata into a unified record. -/
def gogToUnifiedInfo (env : SyncEnv) (info : GOGGameInfo)
    (gamesdbData : Option ApiData) : GameInfo :=
  let e := enrichInfo env info gamesdbData
  { runner := "gog"
    store_url := "https://gog.com" ++ info.url
    developer := e.developer.getD ""
    app_name := toString info.id
    art_logo := none
    art_cover := e.horizontalCover
    art_square := e.verticalCover
    cloud_save_enabled := false
    compatible_apps := []
    extra := { about := { description := e.description, shortDescription := "" }
               reqs := [] }
    folder_name := ""
    install := emptyInstall
    is_game := true
    is_installed := false
    is_ue_asset := false
    is_ue_plugin := false
    is_ue_project := false
    «namespace» := info.slug
    save_folder := ""
    title := info.title
    canRunOffline := true
    is_mac_native := info.worksOn.Mac
    is_linux_native := info.worksOn.Linux }

/-! ## `refreshInstalled` and `sync` -/

/-- `GOGLibrary.refreshInstalled`: clear the in-memory installed map
and re-insert every persisted installed record keyed by its app name. -/
def buildInstalledMap (installedArray : List InstalledInfo) :
    List (String × InstalledInfo) :=
  installedArray.foldl (fun m value => assocSet m value.appName value) []

/-- The page-2-onward fetch loop of `sync`: sequential, unguarded
(`.error` is the uncaught rejection), pages whose body lacks
`products` are skipped. -/
def fetchPagesLoop (env : SyncEnv) :
    List Nat → List GOGGameInfo → Except Unit (List GOGGameInfo)
  | [], gameApiArray => .ok gameApiArray
  | page :: rest, gameApiArray =>
    match env.fetchPage page with
    | none => .error ()
    | some pageData =>
      match pageData.products with
      | some products => fetchPagesLoop env rest (gameApiArray ++ products)
      | none => fetchPagesLoop env rest gameApiArray

/-- The previously persisted catalog lookup of `sync`'s loop body:
`gamesArray ? gamesArray.find(value => value.app_name == id) : null`. -/
def syncFind (gamesArray : Option (List GameInfo)) (appId : String) :
    Option GameInfo :=
  match gamesArray with
  | some arr => arr.find? (fun value => value.app_name == appId)
  | none => none

/-- The defensive copy of `sync`'s loop body: attach installed state to
a copy of the unified record when the title is installed. -/
def attachInstalled (unifiedObject : GameInfo)
    (installedInfo : Option InstalledInfo) : GameInfo :=
  match installedInfo with
  | some info => { unifiedObject with is_installed := true, install := info }
  | none => unifiedObject

/-- Loop-carried state of `sync`'s per-game loop. -/
structure SyncLoopState where
  gamesObjects : List GameInfo
  library : List (String × GameInfo)
  cache : List (String × ApiData)
  deriving DecidableEq, Repr

/-- One iteration of `sync`'s per-game loop: reuse the persisted
unified record when one matches the id, otherwise build one from
cached-or-fetched gamesdb data (filling the cache); push the unified
record onto the output array; attach installed state to a fresh copy
and store that copy in the in-memory library map. -/
def processGame (env : SyncEnv) (gamesArray : Option (List GameInfo))
    (installedGames : List (String × InstalledInfo))
    (st : SyncLoopState) (game : GOGGameInfo) : SyncLoopState :=
  let appId := toString game.id
  let (unifiedObject, cache) :=
    match syncFind gamesArray appId with
    | some u => (u, st.cache)
    | none =>
      match assocGet st.cache appId with
      | some apiData => (gogToUnifiedInfo env game (some apiData), st.cache)
      | none =>
        let d := (getGamesdbData env "gog" appId none).data
        (gogToUnifiedInfo env game (some d), assocSet st.cache appId d)
  let installedInfo := assocGet installedGames appId
  let copyObject := attachInstalled unifiedObject installedInfo
  { gamesObjects := st.gamesObjects ++ [unifiedObject]
    library := assocSet st.library appId copyObject
    cache := cache }

/-- `sync`'s per-game loop over the merged catalog array. -/
def processGamesLoop (env : SyncEnv) (gamesArray : Option (List GameInfo))
    (installedGames : List (String × InstalledInfo)) :
    List GOGGameInfo → SyncLoopState → SyncLoopState
  | [], st => st
  | game :: rest, st =>
    processGamesLoop env gamesArray installedGames rest
      (processGame env gamesArray installedGames st game)

/-- `GOGLibrary.sync`: requires a session and credentials (silent
return otherwise), refreshes the in-memory installed map, merges all
catalog pages (a page-1 failure is caught and aborts with nothing
written; a later page failure is an uncaught rejection), reconciles
every entry against the previously persisted catalog array, and writes
the catalog array and the two counters back to the library store. -/
def sync (env : SyncEnv) (s : SyncState) : Except Unit SyncState :=
  if env.isLoggedIn = false then .ok s
  else
    let s := { s with
      mem := { s.mem with
        installedGames := buildInstalledMap s.stores.installed } }
    match env.credentials with
    | none => .ok s
    | some _ =>
      match env.page1 with
      | none => .ok s
      | some games =>
        let gameApiArrayE : Except Unit (List GOGGameInfo) :=
          match games.products with
          | some products =>
            fetchPagesLoop env (List.range' 2 (games.totalPages - 1)) products
          | none => .ok []
        match gameApiArrayE with
        | .error e => .error e
        | .ok gameApiArray =>
          let st0 : SyncLoopState :=
            { gamesObjects := []
              library := s.mem.library
              cache := s.stores.apiInfoCache }
          let st := processGamesLoop env s.stores.games s.mem.installedGames
            gameApiArray st0
          .ok { stores := { s.stores with
                  games := some st.gamesObjects
                  totalGames := some games.totalProducts
                  totalMovies := some games.moviesCount
                  apiInfoCache := st.cache }
                mem := { s.mem with library := st.library } }

/-! ## `changeGameInstallPath` -/

/-- `findIndex` plus in-place `install_path` assignment on the
persisted installed array: the first record whose `appName` matches is
replaced with a copy carrying the new path; `none` models the thrown
`TypeError` of an index of `-1`. -/
def setInstallPath : List InstalledInfo → String → String →
    Option (List InstalledInfo)
  | [], _, _ => none
  | value :: rest, appName, newInstallPath =>
    if value.appName == appName then
      some ({ value with install_path := newInstallPath } :: rest)
    else
      (setInstallPath rest appName newInstallPath).map (value :: ·)

/-- `GOGLibrary.changeGameInstallPath`: mutate the `install_path` of
the matching persisted installed record and of the cached unified
record's install sub-object, then persist the installed array.  `none`
models the thrown `TypeError` when the title is missing from the
in-memory library map or from the installed array (in either case the
store write is never reached). -/
def changeGameInstallPath (s : SyncState) (appName newInstallPath : String) :
    Option SyncState :=
  match assocGet s.mem.library appName with
  | none => none
  | some cachedGameData =>
    let installedArray := s.stores.installed
    match setInstallPath installedArray appName newInstallPath with
    | none => none
    | some installedArray =>
      let cachedGameData := { cachedGameData with
        install := { cachedGameData.install with
          install_path := newInstallPath } }
      some { s with
        stores := { s.stores with installed := installedArray }
        mem := { s.mem with
          library := assocSet s.mem.library appName cachedGameData } }

/-! ## Update checks -/

/-- `GOGLibrary.checkForLinuxInstallerUpdate`: `false` when the
products API yields no response; otherwise the version comparison of
the first installer whose OS is `linux`, and `undefined` (`none`) when
no such installer exists.  `version` is the possibly-absent locally
recorded version string; JavaScript `==` against `undefined` is
false. -/
def checkForLinuxInstallerUpdate (env : SyncEnv) (appName : String)
    (version : Option String) : Option Bool :=
  match env.productApi appName with
  | none => some false
  | some installers =>
    match installers.find? (fun installer => installer.os == "linux") with
    | some installer => some (some installer.version == version)
    | none => none

/-- `GOGLibrary.checkForGameUpdate` (generic Windows/Mac branch): fetch
the builds listing, follow the first item's metadata link with an
`If-None-Match` header when an etag is recorded, accept exactly the
statuses 200 and 304 (`validateStatus`), and report an update exactly
on 200.  `.error` is the uncaught rejection: a failed builds request, a
missing first item (the metadata URL would be `undefined`), or a
non-accepted status. -/
def checkForGameUpdate (env : SyncEnv) (appName : String)
    (etag : Option String) (platform : String) : Except Unit Bool :=
  match env.builds appName platform with
  | none => .error ()
  | some buildData =>
    match buildData.items.head? with
    | none => .error ()
    | some item =>
      let metaUrl := item.link
      let headers := if optTruthy etag then etag else none
      let status := env.metaStatus metaUrl headers
      if status == 200 || status == 304 then .ok (status == 200)
      else .error ()

/-- The accumulator loop of `listUpdateableGames` over the in-memory
installed records. -/
def listUpdateableLoop (env : SyncEnv) :
    List InstalledInfo → List String → Except Unit (List String)
  | [], updateable => .ok updateable
  | game :: rest, updateable =>
    if game.platform == "linux" then
      let upToDate := checkForLinuxInstallerUpdate env game.appName game.version
      if upToDate == some true then listUpdateableLoop env rest updateable
      else listUpdateableLoop env rest (updateable ++ [game.appName])
    else
      match checkForGameUpdate env game.appName game.versionEtag
          game.platform with
      | .error e => .error e
      | .ok hasUpdate =>
        if hasUpdate then
          listUpdateableLoop env rest (updateable ++ [game.appName])
        else listUpdateableLoop env rest updateable

/-- `GOGLibrary.listUpdateableGames`: iterate the in-memory installed
records in insertion order, dispatch per platform (Linux titles are
updateable unless the installer check reports the same version), and
return the app names needing update. -/
def listUpdateableGames (env : SyncEnv) (s : SyncState) :
    Except Unit (List String) :=
  listUpdateableLoop env (s.mem.installedGames.map (fun p => p.2)) []

/-! ## `getGogdlCommand` -/

/-- The argument filter of `getGogdlCommand`: drop empty entries and
any `--token` argument. -/
def gogdlVisibleArgs (commandParts : List String) : List String :=
  commandParts.filter (fun val => val != "" && !(jsStartsWith val "--token"))

/-- `getGogdlCommand`: the human-readable command line, with empty and
`--token` arguments filtered out and the tool path quoted when it
contains a space.  The resolved tool path (`getGOGdlBin` of
`utils.ts`, not part of this repository snapshot) is taken as the
already-joined `gogdlPath` parameter. -/
def getGogdlCommand (gogdlPath : String) (commandParts : List String) :
    String :=
  let commandParts := gogdlVisibleArgs commandParts
  let gogdlFullPath :=
    if jsIncludes gogdlPath " " then "\"" ++ gogdlPath ++ "\"" else gogdlPath
  String.intercalate " " (gogdlFullPath :: commandParts)

/-! ## A position-independent description of `sync`'s loop

During the per-game loop the `api_info_cache` store only ever gains the
value `getGamesdbData` would fetch for the key, so the record built for
a catalog entry is a function of the entry alone (`syncResolve`), not
of its position in the loop. -/

/-- The gamesdb payload the loop body ends up using for a given id:
the initially cached one if present, the freshly fetched one
otherwise. -/
def canonApiData (env : SyncEnv) (c0 : List (String × ApiData))
    (appId : String) : ApiData :=
  match assocGet c0 appId with
  | some d => d
  | none => (getGamesdbData env "gog" appId none).data

/-- The unified record `sync` pushes for a catalog entry: the persisted
record found by id, or a freshly built one. -/
def syncResolve (env : SyncEnv) (gamesArray : Option (List GameInfo))
    (c0 : List (String × ApiData)) (game : GOGGameInfo) : GameInfo :=
  match syncFind gamesArray (toString game.id) with
  | some u => u
  | none =>
    gogToUnifiedInfo env game (some (canonApiData env c0 (toString game.id)))

/-- Cache evolution invariant of the loop: every key is either still at
its initial value or holds the canonical payload for that key. -/
def cacheInv (env : SyncEnv) (c0 c : List (String × ApiData)) : Prop :=
  ∀ appId, assocGet c appId = assocGet c0 appId ∨
    assocGet c appId = some (canonApiData env c0 appId)

/-- The in-memory library map produced by the loop: one keyed insert of
the installed-state-enriched copy per catalog entry. -/
def libraryFold (env : SyncEnv) (gamesArray : Option (List GameInfo))
    (c0 : List (String × ApiData))
    (installedGames : List (String × InstalledInfo))
    (L : List GOGGameInfo) (lib : List (String × GameInfo)) :
    List (String × GameInfo) :=
  L.foldl (fun lb game =>
    assocSet lb (toString game.id)
      (attachInstalled (syncResolve env gamesArray c0 game)
        (assocGet installedGames (toString game.id)))) lib

/-! ## Page-merge length -/

/-- Product count a given page contributes to the merged array. -/
def pageCount (env : SyncEnv) (page : Nat) : Nat :=
  match env.fetchPage page with
  | some pageData => (pageData.products.getD []).length
  | none => 0

/-! ## Concrete fixtures

A small concrete world used to exercise the theorems below: one owned
title (id 1) that is installed locally, plus environment variants for
the individual scenarios. -/

/-- A concrete catalog entry. -/
def wGame : GOGGameInfo :=
  { id := 1, title := "Witness Game", slug := "witness-game"
    url := "/game/witness_game", image := "//images.gog.com/wg"
    worksOn := { Windows := true, Mac := false, Linux := true } }

/-- A second concrete catalog entry (page 2). -/
def wGame2 : GOGGameInfo :=
  { id := 2, title := "Second Game", slug := "second-game"
    url := "/game/second_game", image := "//images.gog.com/sg"
    worksOn := { Windows := true, Mac := true, Linux := false } }

/-- A concrete installed-store record for the first title. -/
def wInstalled : InstalledInfo :=
  { appName := "1", install_path := "/games/wg", executable := "start.sh"
    install_size := "1 GB", is_dlc := false, version := some "1.0"
    platform := "linux", buildId := some "b1"
    installedWithDLCs := some false, versionEtag := some "etag-1" }

/-- A concrete page-1 response: a one-page catalog containing
`wGame`. -/
def wPage1 : Page1Data :=
  { products := some [wGame], totalPages := 1
    totalProducts := 1, moviesCount := 0 }

/-- A concrete environment: logged in, a one-page catalog containing
`wGame`, every other endpoint failing. -/
def wEnv : SyncEnv :=
  { isLoggedIn := true
    credentials := some { access_token := "token" }
    page1 := some wPage1
    fetchPage := fun _ => none
    gamesdb := fun _ _ => none
    gamesV2 := fun _ => none
    productApi := fun _ => none
    builds := fun _ _ => none
    metaStatus := fun _ _ => 0 }

/-- A concrete initial state: empty library store, `wInstalled` in the
installed store. -/
def wState : SyncState :=
  { stores := { games := none, totalGames := none, totalMovies := none
                apiInfoCache := [], installed := [wInstalled] }
    mem := { library := [], installedGames := [] } }

/-- The state after one concrete `sync` run. -/
def wSynced : SyncState := (sync wEnv wState).toOption.getD wState

/-- The first entry of the persisted `games` array after the concrete
`sync` run. -/
def wSyncedGame : GameInfo :=
  (wSynced.stores.games.getD []).headD (gogToUnifiedInfo wEnv wGame none)

/-- Environment variant with a two-page catalog. -/
def wEnv2 : SyncEnv :=
  { wEnv with
    page1 := some { products := some [wGame], totalPages := 2
                    totalProducts := 2, moviesCount := 0 }
    fetchPage := fun page =>
      if page == 2 then some { products := some [wGame2] } else none }

/-- Environment variant whose page-1 request fails. -/
def wEnvNoPage : SyncEnv := { wEnv with page1 := none }

/-- Environment variant with a builds listing and an etag-honouring
metadata endpoint: 304 exactly when the request carries the server's
current etag. -/
def wEnvBuilds : SyncEnv :=
  { wEnv with
    builds := fun _ _ => some { items := [{ link := "meta-url" }] }
    metaStatus := fun _ ifNoneMatch =>
      if ifNoneMatch == some "etag-1" then 304 else 200 }

/-- A concrete downloads listing with a Linux installer of version
`"1.0"`. -/
def wInstallers : List Installer :=
  [ { os := "windows", version := "2.0", language := "en-US" }
  , { os := "linux", version := "1.0", language := "en-US" } ]

/-- Environment variant serving `wInstallers` from the products API. -/
def wEnvLinux : SyncEnv := { wEnv with productApi := fun _ => some wInstallers }

/-- State variant whose in-memory installed map holds exactly the
Linux title. -/
def wStateLinux : SyncState :=
  { wState with mem := { wState.mem with
      installedGames := [("1", wInstalled)] } }

/-- Installed-store variant of the Linux title recording version
`"1.1"`. -/
def wInstalled11 : InstalledInfo := { wInstalled with version := some "1.1" }

/-- State variant holding the Linux title at recorded version
`"1.1"`. -/
def wStateLinux11 : SyncState :=
  { wState with mem := { wState.mem with
      installedGames := [("1", wInstalled11)] } }

/-- A concrete cached unified record for the first title. -/
def wLibGame : GameInfo := gogToUnifiedInfo wEnv wGame (some { game := none })

/-- State variant with the first title in the in-memory library map
and in the installed store. -/
def wState9 : SyncState :=
  { stores := { games := some [wLibGame], totalGames := some 1
                totalMovies := some 0, apiInfoCache := []
                installed := [wInstalled] }
    mem := { library := [("1", attachInstalled wLibGame (some wInstalled))]
             installedGames := [("1", wInstalled)] } }

/-- The state after a concrete `changeGameInstallPath` run. -/
def wState9' : SyncState :=
  (changeGameInstallPath wState9 "1" "/new/path").getD wState9

/-! ## Association-list lemmas -/

theorem assocGet_assocSet_self {α : Type} (m : List (String × α))
    (k : String) (v : α) : assocGet (assocSet m k v) k = some v := by
  induction m with
  | nil => simp [assocSet, assocGet]
  | cons p rest ih =>
    obtain ⟨k', v'⟩ := p
    cases h : (k' == k) <;> simp [assocSet, assocGet, h, ih]

theorem assocGet_assocSet_ne {α : Type} (m : List (String × α))
    (k k' : String) (v : α) (h : k' ≠ k) :
    assocGet (assocSet m k v) k' = assocGet m k' := by
  have hb : (k == k') = false := by
    cases hbe : (k == k') with
    | false => rfl
    | true => exact absurd (beq_iff_eq.mp hbe) (fun hx => h hx.symm)
  induction m with
  | nil => simp [assocSet, assocGet, hb]
  | cons p rest ih =>
    obtain ⟨k'', v''⟩ := p
    cases hk : (k'' == k) with
    | true =>
      have hkk : k'' = k := beq_iff_eq.mp hk
      subst hkk
      simp [assocSet, assocGet, hk, hb]
    | false => simp [assocSet, assocGet, hk, ih]

theorem processGame_spec (env : SyncEnv) (gamesArray : Option (List GameInfo))
    (m : List (String × InstalledInfo)) (c0 : List (String × ApiData))
    (st : SyncLoopState) (game : GOGGameInfo)
    (hinv : cacheInv env c0 st.cache) :
    ∃ c', processGame env gamesArray m st game =
      { gamesObjects := st.gamesObjects ++ [syncResolve env gamesArray c0 game]
        library := assocSet st.library (toString game.id)
          (attachInstalled (syncResolve env gamesArray c0 game)
            (assocGet m (toString game.id)))
        cache := c' } ∧ cacheInv env c0 c' := by
  unfold processGame syncResolve
  cases hfind : syncFind gamesArray (toString game.id) with
  | some u => exact ⟨st.cache, by simp [hfind], hinv⟩
  | none =>
    cases hc : assocGet st.cache (toString game.id) with
    | some apiData =>
      have hcanon : apiData = canonApiData env c0 (toString game.id) := by
        rcases hinv (toString game.id) with h | h
        · rw [h] at hc
          simp [canonApiData, hc]
        · rw [hc] at h
          exact Option.some.inj h
      exact ⟨st.cache, by simp [hfind, hc, hcanon], hinv⟩
    | none =>
      have hc0 : assocGet c0 (toString game.id) = none := by
        rcases hinv (toString game.id) with h | h
        · rw [← h, hc]
        · rw [hc] at h; cases h
      have hcanon : canonApiData env c0 (toString game.id) =
          (getGamesdbData env "gog" (toString game.id) none).data := by
        simp [canonApiData, hc0]
      refine ⟨assocSet st.cache (toString game.id)
        (getGamesdbData env "gog" (toString game.id) none).data,
        by simp [hfind, hc, hcanon], ?_⟩
      intro appId
      by_cases hid : appId = toString game.id
      · subst hid
        rw [assocGet_assocSet_self]
        right
        rw [hcanon]
      · rw [assocGet_assocSet_ne _ _ _ _ hid]
        exact hinv appId

theorem processGamesLoop_spec (env : SyncEnv)
    (gamesArray : Option (List GameInfo))
    (m : List (String × InstalledInfo)) (c0 : List (String × ApiData)) :
    ∀ (L : List GOGGameInfo) (st : SyncLoopState),
    cacheInv env c0 st.cache →
    ∃ c', processGamesLoop env gamesArray m L st =
      { gamesObjects :=
          st.gamesObjects ++ L.map (syncResolve env gamesArray c0)
        library := libraryFold env gamesArray c0 m L st.library
        cache := c' } ∧ cacheInv env c0 c' := by
  intro L
  induction L with
  | nil => exact fun st h => ⟨st.cache, by simp [processGamesLoop, libraryFold], h⟩
  | cons game rest ih =>
    intro st h
    obtain ⟨c₁, hstep, hinv₁⟩ := processGame_spec env gamesArray m c0 st game h
    obtain ⟨c', hloop, hinv'⟩ :=
      ih (processGame env gamesArray m st game) (by rw [hstep]; exact hinv₁)
    refine ⟨c', ?_, hinv'⟩
    rw [processGamesLoop, hloop, hstep]
    simp [libraryFold]

theorem sync_ok_spec (env : SyncEnv) (s : SyncState) (cred : Credentials)
    (games : Page1Data) (products : List GOGGameInfo) (L : List GOGGameInfo)
    (hlog : env.isLoggedIn = true)
    (hcred : env.credentials = some cred)
    (hpage : env.page1 = some games)
    (hprods : games.products = some products)
    (hpages : fetchPagesLoop env (List.range' 2 (games.totalPages - 1))
      products = .ok L) :
    ∃ c', sync env s = .ok
      { stores := { s.stores with
          games := some (L.map
            (syncResolve env s.stores.games s.stores.apiInfoCache))
          totalGames := some games.totalProducts
          totalMovies := some games.moviesCount
          apiInfoCache := c' }
        mem := { library := libraryFold env s.stores.games
                   s.stores.apiInfoCache
                   (buildInstalledMap s.stores.installed) L s.mem.library
                 installedGames := buildInstalledMap s.stores.installed } }
      ∧ cacheInv env s.stores.apiInfoCache c' := by
  have hinv0 : cacheInv env s.stores.apiInfoCache s.stores.apiInfoCache :=
    fun _ => Or.inl rfl
  obtain ⟨c', hloop, hinv⟩ := processGamesLoop_spec env s.stores.games
    (buildInstalledMap s.stores.installed) s.stores.apiInfoCache L
    { gamesObjects := []
      library := s.mem.library
      cache := s.stores.apiInfoCache } hinv0
  refine ⟨c', ?_, hinv⟩
  unfold sync
  rw [hlog]
  simp only [Bool.true_eq_false, if_false, hcred, hpage, hprods, hpages, hloop,
    List.nil_append]

theorem fetchPagesLoop_ok_length (env : SyncEnv) :
    ∀ (ps : List Nat) (acc : List GOGGameInfo) (L : List GOGGameInfo),
    fetchPagesLoop env ps acc = .ok L →
    L.length = acc.length + (ps.map (pageCount env)).sum := by
  intro ps
  induction ps with
  | nil =>
    intro acc L h
    rw [fetchPagesLoop] at h
    cases h
    simp
  | cons p rest ih =>
    intro acc L h
    rw [fetchPagesLoop] at h
    cases hp : env.fetchPage p with
    | none => simp [hp] at h
    | some pageData =>
      simp only [hp] at h
      cases hpr : pageData.products with
      | some products =>
        simp only [hpr] at h
        have := ih (acc ++ products) L h
        simp only [List.length_append] at this
        simp only [List.map_cons, List.sum_cons, pageCount, hp, hpr,
          Option.getD_some, this]
        omega
      | none =>
        simp only [hpr] at h
        have := ih acc L h
        simp only [List.map_cons, List.sum_cons, pageCount, hp, hpr, this]
        simp

/-! ## Keyed lookup of resolved records -/

theorem syncResolve_app_name (env : SyncEnv)
    (gamesArray : Option (List GameInfo)) (c0 : List (String × ApiData))
    (game : GOGGameInfo) :
    (syncResolve env gamesArray c0 game).app_name = toString game.id := by
  cases gamesArray with
  | none => rfl
  | some arr =>
    cases hfind : arr.find? (fun value => value.app_name == toString game.id)
      with
    | none =>
      simp only [syncResolve, syncFind, hfind]
      rfl
    | some u =>
      have hpred := List.find?_some hfind
      have hres : syncResolve env (some arr) c0 game = u := by
        simp only [syncResolve, syncFind, hfind]
      rw [hres]
      exact beq_iff_eq.mp hpred

theorem find?_map_of_nodup_key (f : GOGGameInfo → GameInfo)
    (hkey : ∀ g, (f g).app_name = toString g.id) :
    ∀ (L : List GOGGameInfo),
    ((L.map (fun g => toString g.id)).Nodup) →
    ∀ g ∈ L,
    (L.map f).find? (fun value => value.app_name == toString g.id) =
      some (f g) := by
  intro L
  induction L with
  | nil => intro _ g hg; cases hg
  | cons a rest ih =>
    intro hnd g hg
    simp only [List.map_cons, List.nodup_cons] at hnd
    by_cases hak : toString a.id = toString g.id
    · have hg' : g = a := by
        rcases List.mem_cons.mp hg with h | h
        · exact h
        · exact absurd (hak ▸ List.mem_map_of_mem (fun g => toString g.id) h)
            hnd.1
      subst hg'
      rw [List.map_cons, List.find?_cons_of_pos _
        (by rw [hkey]; exact beq_iff_eq.mpr rfl)]
    · have hg' : g ∈ rest := by
        rcases List.mem_cons.mp hg with h | h
        · exact absurd (h ▸ rfl) hak
        · exact h
      rw [List.map_cons, List.find?_cons_of_neg _
        (by rw [hkey]; simp [beq_iff_eq, hak])]
      exact ih hnd.2 g hg'

/-! ## Lookup in the library map after the loop -/

theorem libraryFold_get (env : SyncEnv)
    (gamesArray : Option (List GameInfo)) (c0 : List (String × ApiData))
    (m : List (String × InstalledInfo)) (appId : String) :
    ∀ (L : List GOGGameInfo) (lib : List (String × GameInfo)),
    (∃ g ∈ L, toString g.id = appId) →
    ∃ g ∈ L, toString g.id = appId ∧
      assocGet (libraryFold env gamesArray c0 m L lib) appId =
        some (attachInstalled (syncResolve env gamesArray c0 g)
          (assocGet m appId)) := by
  intro L
  induction L using List.reverseRecOn with
  | nil => rintro lib ⟨g, hg, _⟩; cases hg
  | append_singleton rest g ih =>
    intro lib hex
    rw [libraryFold, List.foldl_append]
    by_cases hid : toString g.id = appId
    · refine ⟨g, List.mem_append_right _ (List.mem_singleton.mpr rfl), hid, ?_⟩
      simp only [List.foldl_cons, List.foldl_nil, hid]
      rw [assocGet_assocSet_self]
    · obtain ⟨g', hg', hid'⟩ := hex
      have hg'' : g' ∈ rest := by
        rcases List.mem_append.mp hg' with h | h
        · exact h
        · rw [List.mem_singleton.mp h] at hid'; exact absurd hid' hid
      obtain ⟨g₀, hg₀, hid₀, hget⟩ := ih lib ⟨g', hg'', hid'⟩
      refine ⟨g₀, List.mem_append_left _ hg₀, hid₀, ?_⟩
      simp only [List.foldl_cons, List.foldl_nil]
      rw [assocGet_assocSet_ne _ _ _ _ (fun hx => hid hx.symm)]
      exact hget

/-! ## `setInstallPath` inversion -/

theorem setInstallPath_spec :
    ∀ (l : List InstalledInfo) (appName newPath : String)
      (l' : List InstalledInfo),
    setInstallPath l appName newPath = some l' →
    ∃ pre rec post, l = pre ++ rec :: post ∧
      (∀ u ∈ pre, (u.appName == appName) = false) ∧
      (rec.appName == appName) = true ∧
      l' = pre ++ { rec with install_path := newPath } :: post := by
  intro l
  induction l with
  | nil => intro _ _ _ h; cases h
  | cons value rest ih =>
    intro appName newPath l' h
    rw [setInstallPath] at h
    cases hv : (value.appName == appName) with
    | true =>
      rw [hv] at h
      simp only [if_true] at h
      cases h
      exact ⟨[], value, rest, by simp, by simp, hv, by simp⟩
    | false =>
      rw [hv] at h
      simp only [Bool.false_eq_true, if_false, Option.map_eq_some'] at h
      obtain ⟨l'', hl'', heq⟩ := h
      obtain ⟨pre, rec, post, hsplit, hpre, hrec, hout⟩ :=
        ih appName newPath l'' hl''
      refine ⟨value :: pre, rec, post, by simp [hsplit], ?_, hrec,
        by simp [← heq, hout]⟩
      intro u hu
      rcases List.mem_cons.mp hu with h | h
      · rw [h]; exact hv
      · exact hpre u h

/-! ## Inversion of a successful `sync` -/

theorem sync_ok_inv (env : SyncEnv) (s s' : SyncState) (cred : Credentials)
    (games : Page1Data)
    (hlog : env.isLoggedIn = true)
    (hcred : env.credentials = some cred)
    (hpage : env.page1 = some games)
    (h : sync env s = .ok s') :
    (games.products = none ∧
      s' = { stores := { s.stores with
               games := some []
               totalGames := some games.totalProducts
               totalMovies := some games.moviesCount }
             mem := { library := s.mem.library
                      installedGames :=
                        buildInstalledMap s.stores.installed } }) ∨
    (∃ products L c', games.products = some products ∧
      fetchPagesLoop env (List.range' 2 (games.totalPages - 1)) products =
        .ok L ∧
      cacheInv env s.stores.apiInfoCache c' ∧
      s' = { stores := { s.stores with
               games := some (L.map
                 (syncResolve env s.stores.games s.stores.apiInfoCache))
               totalGames := some games.totalProducts
               totalMovies := some games.moviesCount
               apiInfoCache := c' }
             mem := { library := libraryFold env s.stores.games
                        s.stores.apiInfoCache
                        (buildInstalledMap s.stores.installed) L
                        s.mem.library
                      installedGames :=
                        buildInstalledMap s.stores.installed } }) := by
  cases hprods : games.products with
  | none =>
    left
    refine ⟨rfl, ?_⟩
    unfold sync at h
    rw [hlog] at h
    simp only [Bool.true_eq_false, if_false, hcred, hpage, hprods,
      processGamesLoop] at h
    exact (Except.ok.inj h).symm
  | some products =>
    right
    cases hfp : fetchPagesLoop env (List.range' 2 (games.totalPages - 1))
        products with
    | error e =>
      exfalso
      unfold sync at h
      rw [hlog] at h
      simp only [Bool.true_eq_false, if_false, hcred, hpage, hprods, hfp] at h
      exact Except.noConfusion h
    | ok L =>
      obtain ⟨c', hspec, hinv⟩ := sync_ok_spec env s cred games products L
        hlog hcred hpage hprods hfp
      rw [h] at hspec
      exact ⟨products, L, c', rfl, hfp, hinv, Except.ok.inj hspec⟩

/-! ## Claims -/

/-- C4: if fetching page 1 of the remote catalog fails, `sync` aborts
the whole synchronization: no exception propagates (the result is
`.ok`) and every persisted store field -- in particular `games`,
`totalGames` and `totalMovies` -- is unchanged. -/
theorem gog_sync_page1_failure_aborts (env : SyncEnv) (s : SyncState)
    (hpage : env.page1 = none) :
    (sync env s).map (fun s' => s'.stores) = .ok s.stores := by
  unfold sync
  cases hlog : env.isLoggedIn with
  | false => rfl
  | true =>
    simp only [Bool.true_eq_false, if_false]
    cases hcred : env.credentials with
    | none => rfl
    | some cred =>
      rw [hpage]
      exact rfl

/-- C4 witness: a concrete failed page-1 fetch leaves the concrete
stores untouched. -/
theorem gog_sync_page1_failure_aborts_witness :
    (sync wEnvNoPage wState).map (fun s' => s'.stores) = .ok wState.stores :=
  gog_sync_page1_failure_aborts wEnvNoPage wState rfl

/-- C5: the command string built by `getGogdlCommand` never carries a
`--token` argument: the visible-argument list it joins drops every
argument starting with `--token`, the result is invariant under
changing the token argument's value, and on the spec's concrete vector
the result is exactly `gogdl info 123 --lang=en-US`, contains
`info 123 --lang=en-US`, and does not contain `SECRET`. -/
theorem gog_getGogdlCommand_token_redaction (gogdlPath : String)
    (args pre post : List String) (t₁ t₂ : String)
    (h₁ : jsStartsWith t₁ "--token" = true)
    (h₂ : jsStartsWith t₂ "--token" = true) :
    (getGogdlCommand gogdlPath args = String.intercalate " "
      ((if jsIncludes gogdlPath " " then "\"" ++ gogdlPath ++ "\""
        else gogdlPath) :: gogdlVisibleArgs args)) ∧
    (∀ v ∈ gogdlVisibleArgs args, jsStartsWith v "--token" = false) ∧
    getGogdlCommand gogdlPath (pre ++ t₁ :: post) =
      getGogdlCommand gogdlPath (pre ++ t₂ :: post) ∧
    getGogdlCommand "gogdl" ["info", "123", "--token=SECRET", "--lang=en-US"] =
      "gogdl info 123 --lang=en-US" ∧
    jsIncludes "gogdl info 123 --lang=en-US" "info 123 --lang=en-US" = true ∧
    jsIncludes "gogdl info 123 --lang=en-US" "SECRET" = false := by
  refine ⟨rfl, ?_, ?_, by decide, by decide, by decide⟩
  · intro v hv
    have := List.of_mem_filter hv
    cases hsw : jsStartsWith v "--token" with
    | false => rfl
    | true => rw [hsw] at this; simp at this
  · unfold getGogdlCommand gogdlVisibleArgs
    simp only [List.filter_append, List.filter_cons, h₁, h₂,
      Bool.not_true, Bool.and_false, Bool.false_eq_true, if_false]

/-- C5 witness: the redaction theorem at the spec's concrete command
vector and two concrete token values. -/
theorem gog_getGogdlCommand_token_redaction_witness :
    jsStartsWith "--token=SECRET" "--token" = true ∧
    jsStartsWith "--token=OTHER" "--token" = true ∧
    getGogdlCommand "gogdl"
        (["info", "123"] ++ "--token=SECRET" :: ["--lang=en-US"]) =
      getGogdlCommand "gogdl"
        (["info", "123"] ++ "--token=OTHER" :: ["--lang=en-US"]) ∧
    jsIncludes "gogdl info 123 --lang=en-US" "SECRET" = false :=
  ⟨by decide, by decide,
    (gog_getGogdlCommand_token_redaction "gogdl"
      ["info", "123", "--token=SECRET", "--lang=en-US"]
      ["info", "123"] ["--lang=en-US"] "--token=SECRET" "--token=OTHER"
      (by decide) (by decide)).2.2.1,
    (gog_getGogdlCommand_token_redaction "gogdl"
      ["info", "123", "--token=SECRET", "--lang=en-US"]
      ["info", "123"] ["--lang=en-US"] "--token=SECRET" "--token=OTHER"
      (by decide) (by decide)).2.2.2.2.2⟩

/-- C6: in the generic (Windows/Mac) update-check branch,
`checkForGameUpdate` reports an update exactly when the conditional
metadata request (with `If-None-Match` set to the recorded etag when
one exists) yields HTTP 200, reports no update exactly on HTTP 304,
and accepts no other status (anything else is an error, not a normal
result). -/
theorem gog_checkForGameUpdate_statuses (env : SyncEnv)
    (appName platform : String) (etag : Option String)
    (bd : BuildsData) (item : BuildItem)
    (hb : env.builds appName platform = some bd)
    (hitem : bd.items.head? = some item) :
    (checkForGameUpdate env appName etag platform = .ok true ↔
      env.metaStatus item.link (if optTruthy etag then etag else none) =
        200) ∧
    (checkForGameUpdate env appName etag platform = .ok false ↔
      env.metaStatus item.link (if optTruthy etag then etag else none) =
        304) ∧
    (checkForGameUpdate env appName etag platform = .error () ↔
      (env.metaStatus item.link (if optTruthy etag then etag else none) ≠
          200 ∧
       env.metaStatus item.link (if optTruthy etag then etag else none) ≠
         304)) := by
  unfold checkForGameUpdate
  simp only [hb, hitem]
  cases h200 : (env.metaStatus item.link
      (if optTruthy etag then etag else none) == 200) with
  | true =>
    have h2 := eq_of_beq h200
    simp [h200, h2]
  | false =>
    cases h304 : (env.metaStatus item.link
        (if optTruthy etag then etag else none) == 304) with
    | true =>
      have h3 := eq_of_beq h304
      simp [h200, h304, h3]
    | false =>
      have h2 := ne_of_beq_false h200
      have h3 := ne_of_beq_false h304
      simp [h200, h304, h2, h3]

/-- C6 witness: against a concrete etag-honouring server, the recorded
etag matching the server's yields no update (304), and a stale one
yields an update (200). -/
theorem gog_checkForGameUpdate_statuses_witness :
    checkForGameUpdate wEnvBuilds "1" (some "etag-1") "windows" =
      .ok false ∧
    checkForGameUpdate wEnvBuilds "1" (some "etag-2") "windows" =
      .ok true :=
  ⟨(gog_checkForGameUpdate_statuses wEnvBuilds "1" "windows"
      (some "etag-1") { items := [{ link := "meta-url" }] }
      { link := "meta-url" } (by decide) (by decide)).2.1.mpr (by decide),
   (gog_checkForGameUpdate_statuses wEnvBuilds "1" "windows"
      (some "etag-2") { items := [{ link := "meta-url" }] }
      { link := "meta-url" } (by decide) (by decide)).1.mpr (by decide)⟩

/-- C7: for an installed Linux title whose downloads listing carries a
Linux installer, `listUpdateableGames` excludes the title exactly when
the installer's version equals the locally recorded one, and includes
it when the two differ. -/
theorem gog_linux_update_version_compare (env : SyncEnv) (s : SyncState)
    (k : String) (game : InstalledInfo) (l : List Installer)
    (inst : Installer) (v : String)
    (hmem : s.mem.installedGames = [(k, game)])
    (hplat : game.platform = "linux")
    (hv : game.version = some v)
    (hapi : env.productApi game.appName = some l)
    (hfind : l.find? (fun installer => installer.os == "linux") =
      some inst) :
    listUpdateableGames env s =
      .ok (if inst.version = v then [] else [game.appName]) := by
  have hcheck : checkForLinuxInstallerUpdate env game.appName game.version =
      some (inst.version == v) := by
    simp only [checkForLinuxInstallerUpdate, hapi, hfind, hv]
    rfl
  unfold listUpdateableGames
  rw [hmem]
  simp only [List.map_cons, List.map_nil, listUpdateableLoop, hplat,
    hcheck]
  by_cases hveq : inst.version = v <;>
    simp [hveq, listUpdateableLoop]

/-- C7 witness: recorded version `"1.0"` against installer version
`"1.0"` is not updateable; recorded `"1.1"` against installer `"1.0"`
is. -/
theorem gog_linux_update_version_compare_witness :
    listUpdateableGames wEnvLinux wStateLinux = .ok [] ∧
    listUpdateableGames wEnvLinux wStateLinux11 = .ok ["1"] := by
  constructor
  · have h := gog_linux_update_version_compare wEnvLinux wStateLinux "1"
      wInstalled wInstallers
      { os := "linux", version := "1.0", language := "en-US" } "1.0"
      (by decide) (by decide) (by decide) (by decide) (by decide)
    simpa using h
  · have h := gog_linux_update_version_compare wEnvLinux wStateLinux11 "1"
      wInstalled11 wInstallers
      { os := "linux", version := "1.0", language := "en-US" } "1.1"
      (by decide) (by decide) (by decide) (by decide) (by decide)
    simpa using h

/-- C10: for an installed Linux title, a completely failed downloads
listing makes `checkForLinuxInstallerUpdate` return `false`, and a
listing with no Linux installer makes it return `undefined`; in both
cases `listUpdateableGames` includes the title in the updateable set,
indistinguishable from a genuine version mismatch. -/
theorem gog_linux_update_failure_included (env : SyncEnv) (s : SyncState)
    (k : String) (game : InstalledInfo)
    (hmem : s.mem.installedGames = [(k, game)])
    (hplat : game.platform = "linux")
    (hfail : env.productApi game.appName = none ∨
      ∃ l, env.productApi game.appName = some l ∧
        l.find? (fun installer => installer.os == "linux") = none) :
    (env.productApi game.appName = none →
      checkForLinuxInstallerUpdate env game.appName game.version =
        some false) ∧
    (∀ l, env.productApi game.appName = some l →
      l.find? (fun installer => installer.os == "linux") = none →
      checkForLinuxInstallerUpdate env game.appName game.version = none) ∧
    listUpdateableGames env s = .ok [game.appName] := by
  have hc : checkForLinuxInstallerUpdate env game.appName game.version =
      some false ∨
      checkForLinuxInstallerUpdate env game.appName game.version = none := by
    rcases hfail with hnone | ⟨l, hl, hfindn⟩
    · left
      simp only [checkForLinuxInstallerUpdate, hnone]
    · right
      simp only [checkForLinuxInstallerUpdate, hl, hfindn]
  have hlist : listUpdateableGames env s = .ok [game.appName] := by
    unfold listUpdateableGames
    rw [hmem]
    rcases hc with hc | hc <;>
      simp [listUpdateableLoop, hplat, hc]
  refine ⟨?_, ?_, hlist⟩
  · intro hnone
    simp only [checkForLinuxInstallerUpdate, hnone]
  · intro l hl hfindn
    simp only [checkForLinuxInstallerUpdate, hl, hfindn]

/-- C10 witness: the concrete Linux title with a failed products API
is reported updateable with the check returning `false`. -/
theorem gog_linux_update_failure_included_witness :
    (wEnv.productApi "1" = none →
      checkForLinuxInstallerUpdate wEnv "1" (some "1.0") = some false) ∧
    (∀ l, wEnv.productApi "1" = some l →
      l.find? (fun installer => installer.os == "linux") = none →
      checkForLinuxInstallerUpdate wEnv "1" (some "1.0") = none) ∧
    listUpdateableGames wEnv wStateLinux = .ok ["1"] := by
  have h := gog_linux_update_failure_included wEnv wStateLinux "1"
    wInstalled (by decide) (by decide) (Or.inl (by decide))
  simpa using h

/-- C9: `changeGameInstallPath` rewrites exactly the `install_path` of
the first matching installed-store record and of the cached unified
record's install sub-object; the persisted library store (`games`,
`totalGames`, `totalMovies`, `apiInfoCache`) and every other field of
the installed records are unchanged, and the cached record is patched
in place, not re-derived. -/
theorem gog_changeGameInstallPath_frame (s : SyncState)
    (appName newPath : String) (s' : SyncState)
    (h : changeGameInstallPath s appName newPath = some s') :
    s'.stores.games = s.stores.games ∧
    s'.stores.totalGames = s.stores.totalGames ∧
    s'.stores.totalMovies = s.stores.totalMovies ∧
    s'.stores.apiInfoCache = s.stores.apiInfoCache ∧
    (∃ pre entry post,
      s.stores.installed = pre ++ entry :: post ∧
      (∀ u ∈ pre, (u.appName == appName) = false) ∧
      (entry.appName == appName) = true ∧
      s'.stores.installed =
        pre ++ { entry with install_path := newPath } :: post) ∧
    (∃ cached, assocGet s.mem.library appName = some cached ∧
      s'.mem.library = assocSet s.mem.library appName
        { cached with install := { cached.install with
            install_path := newPath } }) := by
  unfold changeGameInstallPath at h
  cases hlib : assocGet s.mem.library appName with
  | none => rw [hlib] at h; cases h
  | some cached =>
    simp only [hlib] at h
    cases hsetp : setInstallPath s.stores.installed appName newPath with
    | none => rw [hsetp] at h; cases h
    | some arr =>
      simp only [hsetp] at h
      cases h
      obtain ⟨pre, entry, post, hsplit, hpre, hentry, hout⟩ :=
        setInstallPath_spec s.stores.installed appName newPath arr hsetp
      exact ⟨rfl, rfl, rfl, rfl,
        ⟨pre, entry, post, hsplit, hpre, hentry, hout⟩,
        ⟨cached, rfl, rfl⟩⟩

/-- C9 witness: the frame theorem at a concrete state holding the
installed title. -/
theorem gog_changeGameInstallPath_frame_witness :
    wState9'.stores.games = wState9.stores.games ∧
    wState9'.stores.totalGames = wState9.stores.totalGames ∧
    wState9'.stores.totalMovies = wState9.stores.totalMovies ∧
    wState9'.stores.apiInfoCache = wState9.stores.apiInfoCache ∧
    (∃ pre entry post,
      wState9.stores.installed = pre ++ entry :: post ∧
      (∀ u ∈ pre, (u.appName == "1") = false) ∧
      (entry.appName == "1") = true ∧
      wState9'.stores.installed =
        pre ++ { entry with install_path := "/new/path" } :: post) ∧
    (∃ cached, assocGet wState9.mem.library "1" = some cached ∧
      wState9'.mem.library = assocSet wState9.mem.library "1"
        { cached with install := { cached.install with
            install_path := "/new/path" } }) :=
  gog_changeGameInstallPath_frame wState9 "1" "/new/path" wState9'
    (by decide)

/-! ## C1, C2, C3, C8: the sync claims -/

theorem sync_noproducts_spec (env : SyncEnv) (s : SyncState)
    (cred : Credentials) (games : Page1Data)
    (hlog : env.isLoggedIn = true)
    (hcred : env.credentials = some cred)
    (hpage : env.page1 = some games)
    (hprods : games.products = none) :
    sync env s = .ok
      { stores := { s.stores with
          games := some []
          totalGames := some games.totalProducts
          totalMovies := some games.moviesCount }
        mem := { library := s.mem.library
                 installedGames := buildInstalledMap s.stores.installed } } := by
  unfold sync
  rw [hlog]
  simp only [Bool.true_eq_false, if_false, hcred, hpage, hprods,
    processGamesLoop]

/-- C1 counterexample: in a concrete run where title `"1"` is present
in the Installed Store and in the fetched catalog, the entry written to
the persisted library-store `games` array still has
`is_installed = false` and the empty `install` object — the installed
state is only attached to the in-memory copy, never to the persisted
array. -/
theorem gog_sync_persisted_entry_not_marked_installed :
    (assocGet (buildInstalledMap wState.stores.installed) "1").isSome =
      true ∧
    (sync wEnv wState).toOption.map
      (fun s' => (s'.stores.games.getD []).map
        (fun g => (g.app_name, g.is_installed, g.install == emptyInstall)))
      = some [("1", false, true)] := by decide

/-- C1 (amended): for every title whose identifier is present in the
Installed Store at the time `sync` runs and that appears in the fetched
remote catalog, after `sync` completes the corresponding entry of the
in-memory library map has `is_installed = true` and its `install`
field populated with the Installed Store record; the persisted `games`
array receives the uncopied record without that install data (see the
counterexample). -/
theorem gog_sync_installed_marks_in_memory (env : SyncEnv) (s : SyncState)
    (cred : Credentials) (games : Page1Data)
    (products L : List GOGGameInfo) (g : GOGGameInfo)
    (entry : InstalledInfo)
    (hlog : env.isLoggedIn = true)
    (hcred : env.credentials = some cred)
    (hpage : env.page1 = some games)
    (hprods : games.products = some products)
    (hpages : fetchPagesLoop env (List.range' 2 (games.totalPages - 1))
      products = .ok L)
    (hg : g ∈ L)
    (hinst : assocGet (buildInstalledMap s.stores.installed)
      (toString g.id) = some entry) :
    ∃ s' u, sync env s = .ok s' ∧
      assocGet s'.mem.library (toString g.id) = some u ∧
      u.is_installed = true ∧ u.install = entry := by
  obtain ⟨c', hspec, _⟩ := sync_ok_spec env s cred games products L
    hlog hcred hpage hprods hpages
  obtain ⟨g', hg', hid', hget⟩ := libraryFold_get env s.stores.games
    s.stores.apiInfoCache (buildInstalledMap s.stores.installed)
    (toString g.id) L s.mem.library ⟨g, hg, rfl⟩
  refine ⟨_, attachInstalled
      (syncResolve env s.stores.games s.stores.apiInfoCache g')
      (assocGet (buildInstalledMap s.stores.installed) (toString g.id)),
    hspec, hget, ?_, ?_⟩
  · simp only [hinst, attachInstalled]
  · simp only [hinst, attachInstalled]

/-- C1 (amended) witness: the concrete installed title is marked
installed in the in-memory library map after the concrete `sync`. -/
theorem gog_sync_installed_marks_in_memory_witness :
    ∃ s' u, sync wEnv wState = .ok s' ∧
      assocGet s'.mem.library "1" = some u ∧
      u.is_installed = true ∧ u.install = wInstalled :=
  gog_sync_installed_marks_in_memory wEnv wState
    { access_token := "token" } wPage1 [wGame] [wGame] wGame wInstalled
    (by decide) (by decide) (by decide) (by decide) (by decide)
    (by decide) (by decide)

/-- C2: every entry of the `games` array `sync` writes to the persisted
library store is either a record reused verbatim from the previously
persisted array or a freshly built record with `is_installed = false`
and the empty `install` object: installed state is attached only to the
defensive copy placed in the in-memory map, so the persisted catalog
array never carries install data written by `sync`. -/
theorem gog_sync_no_install_writeback (env : SyncEnv) (s s' : SyncState)
    (cred : Credentials) (games : Page1Data) (gl : List GameInfo)
    (hlog : env.isLoggedIn = true)
    (hcred : env.credentials = some cred)
    (hpage : env.page1 = some games)
    (hok : sync env s = .ok s')
    (hgl : s'.stores.games = some gl) :
    ∀ g ∈ gl, (∃ old, s.stores.games = some old ∧ g ∈ old) ∨
      (g.is_installed = false ∧ g.install = emptyInstall) := by
  rcases sync_ok_inv env s s' cred games hlog hcred hpage hok with
    ⟨hprods, hs'⟩ | ⟨products, L, c', hprods, hfp, hinv, hs'⟩
  · rw [hs'] at hgl
    have hgl' : ([] : List GameInfo) = gl := Option.some.inj hgl
    intro g hg
    rw [← hgl'] at hg
    cases hg
  · rw [hs'] at hgl
    have hgl' :
        L.map (syncResolve env s.stores.games s.stores.apiInfoCache) = gl :=
      Option.some.inj hgl
    intro g hg
    rw [← hgl'] at hg
    obtain ⟨g₀, hg₀, rfl⟩ := List.mem_map.mp hg
    cases hfind : syncFind s.stores.games (toString g₀.id) with
    | some u =>
      left
      have hres : syncResolve env s.stores.games s.stores.apiInfoCache g₀ =
          u := by
        simp only [syncResolve, hfind]
      rw [hres]
      unfold syncFind at hfind
      cases harr : s.stores.games with
      | none => rw [harr] at hfind; cases hfind
      | some old =>
        rw [harr] at hfind
        exact ⟨old, rfl, List.mem_of_find?_eq_some hfind⟩
    | none =>
      right
      have hres : syncResolve env s.stores.games s.stores.apiInfoCache g₀ =
          gogToUnifiedInfo env g₀
            (some (canonApiData env s.stores.apiInfoCache
              (toString g₀.id))) := by
        simp only [syncResolve, hfind]
      rw [hres]
      exact ⟨rfl, rfl⟩

/-- C2 witness: the no-write-back property at the concrete run's
persisted entry. -/
theorem gog_sync_no_install_writeback_witness :
    (∃ old, wState.stores.games = some old ∧ wSyncedGame ∈ old) ∨
    (wSyncedGame.is_installed = false ∧ wSyncedGame.install =
      emptyInstall) :=
  gog_sync_no_install_writeback wEnv wState wSynced
    { access_token := "token" } wPage1 (wSynced.stores.games.getD [])
    (by decide) (by decide) (by decide) (by decide) (by decide)
    wSyncedGame (by decide)

/-- C8: when page 1 succeeds and the page-2-onward loop completes
(which requires every remaining fetch to succeed), the merged catalog
array `L`, and with it the persisted `games` array, has length equal to
the page-1 product count plus the sum of the per-page product counts of
pages 2 through the server-reported total-pages field — one entry per
fetched product, none dropped, none duplicated. -/
theorem gog_sync_catalog_length (env : SyncEnv) (s : SyncState)
    (cred : Credentials) (games : Page1Data)
    (products L : List GOGGameInfo)
    (hlog : env.isLoggedIn = true)
    (hcred : env.credentials = some cred)
    (hpage : env.page1 = some games)
    (hprods : games.products = some products)
    (hpages : fetchPagesLoop env (List.range' 2 (games.totalPages - 1))
      products = .ok L)
    (_hnd : (L.map (fun g => toString g.id)).Nodup) :
    ∃ s' gl, sync env s = .ok s' ∧ s'.stores.games = some gl ∧
      gl.length = L.length ∧
      gl.length = products.length +
        ((List.range' 2 (games.totalPages - 1)).map (pageCount env)).sum := by
  obtain ⟨c', hspec, _⟩ := sync_ok_spec env s cred games products L
    hlog hcred hpage hprods hpages
  have hlen := fetchPagesLoop_ok_length env
    (List.range' 2 (games.totalPages - 1)) products L hpages
  exact ⟨_, _, hspec, rfl, by simp, by simp [hlen]⟩

/-- C8 witness: a concrete two-page catalog merges to two entries. -/
theorem gog_sync_catalog_length_witness :
    ∃ s' gl, sync wEnv2 wState = .ok s' ∧ s'.stores.games = some gl ∧
      gl.length = [wGame, wGame2].length ∧
      gl.length = [wGame].length +
        ((List.range' 2 (wEnv2.page1.getD wPage1).totalPages.pred).map
          (pageCount wEnv2)).sum := by
  have h := gog_sync_catalog_length wEnv2 wState
    { access_token := "token" }
    { products := some [wGame], totalPages := 2
      totalProducts := 2, moviesCount := 0 }
    [wGame] [wGame, wGame2]
    (by decide) (by decide) (by decide) (by decide) (by decide) (by decide)
  simpa using h

/-- C3: when a first `sync` succeeds and the catalog identifiers it
persisted are pairwise distinct, a second `sync` against an unchanged
environment writes an identical `games` array; moreover every record
found by identifier in the previously persisted array is passed
through unmodified rather than rebuilt. -/
theorem gog_sync_idempotent (env : SyncEnv) (s s₁ : SyncState)
    (h₁ : sync env s = .ok s₁)
    (hnd : ((s₁.stores.games.getD []).map (fun g => g.app_name)).Nodup) :
    (∃ s₂, sync env s₁ = .ok s₂ ∧
      s₂.stores.games = s₁.stores.games) ∧
    (∀ g u, syncFind s₁.stores.games (toString g.id) = some u →
      syncResolve env s₁.stores.games s₁.stores.apiInfoCache g = u) := by
  refine ⟨?_, ?_⟩
  swap
  · intro g u hf
    simp only [syncResolve, hf]
  cases hlog : env.isLoggedIn with
  | false =>
    have habort : ∀ t : SyncState, sync env t = .ok t := by
      intro t
      unfold sync
      rw [hlog]
      exact rfl
    exact ⟨s₁, habort s₁, rfl⟩
  | true =>
    cases hcred : env.credentials with
    | none =>
      have habort : ∀ t : SyncState, sync env t = .ok
          { t with mem := { t.mem with
              installedGames := buildInstalledMap t.stores.installed } } := by
        intro t
        unfold sync
        rw [hlog]
        simp only [Bool.true_eq_false, if_false, hcred]
      exact ⟨_, habort s₁, rfl⟩
    | some cred =>
      cases hpage : env.page1 with
      | none =>
        have habort : ∀ t : SyncState, sync env t = .ok
            { t with mem := { t.mem with
                installedGames :=
                  buildInstalledMap t.stores.installed } } := by
          intro t
          unfold sync
          rw [hlog]
          simp only [Bool.true_eq_false, if_false, hcred, hpage]
        exact ⟨_, habort s₁, rfl⟩
      | some games =>
        rcases sync_ok_inv env s s₁ cred games hlog hcred hpage h₁ with
          ⟨hprods, hs₁⟩ | ⟨products, L, c', hprods, hfp, hinv, hs₁⟩
        · subst hs₁
          exact ⟨_, sync_noproducts_spec env _ cred games hlog hcred hpage
            hprods, rfl⟩
        · subst hs₁
          have happ := syncResolve_app_name env s.stores.games
            s.stores.apiInfoCache
          have hndL : (L.map (fun g => toString g.id)).Nodup := by
            have hmm :
                ((L.map (syncResolve env s.stores.games
                  s.stores.apiInfoCache)).map (fun g => g.app_name)) =
                L.map (fun g => toString g.id) := by
              rw [List.map_map]
              exact List.map_congr_left (fun a _ => happ a)
            rw [← hmm]
            exact hnd
          obtain ⟨c₂, hspec₂, _⟩ := sync_ok_spec env _ cred games products L
            hlog hcred hpage hprods hfp
          refine ⟨_, hspec₂, ?_⟩
          show some (L.map (syncResolve env
            (some (L.map (syncResolve env s.stores.games
              s.stores.apiInfoCache))) c')) =
            some (L.map (syncResolve env s.stores.games
              s.stores.apiInfoCache))
          have heach : ∀ g ∈ L,
              syncResolve env
                (some (L.map (syncResolve env s.stores.games
                  s.stores.apiInfoCache))) c' g =
              syncResolve env s.stores.games s.stores.apiInfoCache g := by
            intro g hg
            have hfind := find?_map_of_nodup_key
              (syncResolve env s.stores.games s.stores.apiInfoCache)
              happ L hndL g hg
            simp only [syncResolve, syncFind, hfind]
          rw [List.map_congr_left heach]

/-- C3 witness: two consecutive concrete `sync` runs write the same
`games` array. -/
theorem gog_sync_idempotent_witness :
    ∃ s₂, sync wEnv wSynced = .ok s₂ ∧
      s₂.stores.games = wSynced.stores.games :=
  (gog_sync_idempotent wEnv wState wSynced (by decide) (by decide)).1

end GogLibrary

